import Mathlib

/-!
Verification of the conversation-orchestrator core of a Telegram bot.

The embedding below follows the Python sources:
* `bot/OBSOLETEanthropic-helper.py` — session store, token estimation,
  compaction/truncation (`__common_get_chat_response`), the recursive
  tool-dispatch loop (`__handle_function_call`), reset (`reset_chat_history`),
  vision flag handling, and the tenacity retry decorator.
* `bot/anthropic_helper.py` — the newer `AnthropicHelper.process_message`
  retry loop.
* `bot/plugin_manager.py` — `PluginManager.activate_plugin`.

Two small pieces the helper calls live outside the repository snapshot
(`utils.is_direct_result`, `PluginManager.call_function` of the old plugin
manager interface); they are modelled from the spec and marked as such.
-/

namespace ClaudeBot

/-! ## Messages and content blocks

A history entry is `{role, content}` (plus an optional `name` for the
`"function"` role, as produced by `__add_function_call_to_history`).
Content is either a plain string or a list of blocks; a block is a text
block, an image block (`"image"` / `"image_url"`), or some other block type
(`__estimate_tokens` counts those as zero characters). -/

inductive Block where
  | text (s : String)
  | image
  | otherBlock
deriving DecidableEq, Repr

inductive MsgContent where
  | str (s : String)
  | blocks (items : List Block)
deriving DecidableEq, Repr

structure Msg where
  role : String
  content : MsgContent
  name : Option String
deriving DecidableEq, Repr

def userMsg (s : String) : Msg := ⟨"user", MsgContent.str s, none⟩

def assistantMsg (s : String) : Msg := ⟨"assistant", MsgContent.str s, none⟩

def systemMsg (c : MsgContent) : Msg := ⟨"system", c, none⟩

/-- `__add_function_call_to_history`: appends
`{"role": "function", "name": function_name, "content": content}`. -/
def functionMsg (function_name content : String) : Msg :=
  ⟨"function", MsgContent.str content, some function_name⟩

/-! ## `__estimate_tokens` -/

/-- Character weight of one content block: text blocks count their length,
image blocks add the fixed 1000-character surcharge, anything else counts 0. -/
def block_chars : Block → Nat
  | Block.text s => s.length
  | Block.image => 1000
  | Block.otherBlock => 0

def content_chars : MsgContent → Nat
  | MsgContent.str s => s.length
  | MsgContent.blocks items => (items.map block_chars).sum

/-- `total_chars` accumulated over the whole history by `__estimate_tokens`. -/
def total_chars (messages : List Msg) : Nat :=
  (messages.map (fun m => content_chars m.content)).sum

/-- `__estimate_tokens`: `total_chars // 4`. -/
def estimate_tokens (messages : List Msg) : Nat :=
  total_chars messages / 4

/-! ## Configuration -/

structure Config where
  assistant_prompt : String
  max_history_size : Nat
  functions_max_consecutive_calls : Nat
  enable_functions : Bool
  model : String

def CLAUDE_3_MODELS : List String :=
  ["claude-3-opus-20240229", "claude-3-sonnet-20240229", "claude-3-haiku-20240307"]

def CLAUDE_3_5_MODELS : List String :=
  ["claude-3-5-sonnet-20240307"]

/-- `are_functions_available`: Claude 3 / 3.5 models support tools. -/
def are_functions_available (model : String) : Bool :=
  CLAUDE_3_MODELS.contains model || CLAUDE_3_5_MODELS.contains model

/-! ## Session state

`conversations[chat_id]` and `conversations_vision[chat_id]` combined into
one record, as both are always (re)assigned together by
`reset_chat_history`. -/

structure Session where
  history : List Msg
  vision : Bool
deriving DecidableEq, Repr

/-- `reset_chat_history(chat_id, content='')`: an empty `content` is replaced
by the configured assistant prompt; the log becomes the single system seed
message and the vision flag is cleared. -/
def reset_chat_history (cfg : Config) (content : MsgContent) : Session :=
  let c := if content = MsgContent.str "" then MsgContent.str cfg.assistant_prompt else content
  ⟨[systemMsg c], false⟩

/-- `interpret_image` sets `conversations_vision[chat_id] = True` and appends
the prompt+image user message. -/
def interpret_image_mark (s : Session) (content : MsgContent) : Session :=
  ⟨s.history ++ [Msg.mk "user" content none], true⟩

/-- The tool-enabling guard of `get_chat_response`:
`enable_functions and are_functions_available(model) and not vision`. -/
def tools_enabled (cfg : Config) (s : Session) : Bool :=
  cfg.enable_functions && are_functions_available cfg.model && !s.vision

/-! ## Compaction / truncation (`__common_get_chat_response`, history part) -/

/-- The hard token ceiling used by `__common_get_chat_response`. -/
def MAX_TOKENS_CAP : Nat := 100000

/-- Python `lst[-n:]`: `lst[-0:]` is the whole list. -/
def pyTakeLast (l : List Msg) (n : Nat) : List Msg :=
  if n = 0 then l else l.drop (l.length - n)

/-- The history-management prefix of `__common_get_chat_response`: append the
user turn; if the estimated tokens exceed the cap or the length exceeds
`max_history_size`, summarise everything but the new turn and rewrite the log
to `[seed, summary, user turn]` (via `reset_chat_history`, which also clears
the vision flag); if summarisation raises, fall back to `conv[-max_history_size:]`.
The summariser is abstracted as a fallible call. -/
def prepare_history (cfg : Config) (summarise : List Msg → Except String String)
    (s : Session) (query : String) : Session :=
  let hist1 := s.history ++ [userMsg query]
  if estimate_tokens hist1 > MAX_TOKENS_CAP ∨ hist1.length > cfg.max_history_size then
    match summarise hist1.dropLast with
    | Except.ok summary =>
      let r := reset_chat_history cfg (hist1.headD (userMsg query)).content
      ⟨r.history ++ [assistantMsg summary, userMsg query], r.vision⟩
    | Except.error _ => ⟨pyTakeLast hist1 cfg.max_history_size, s.vision⟩
  else ⟨hist1, s.vision⟩

/-! ## Tool dispatch (`__handle_function_call`)

A provider response is a list of content items; the dispatch loop scans them
in order, executes each `tool_use` item via the plugin manager, and — while
the depth counter `times` is below `functions_max_consecutive_calls` — feeds
the result back to the model and recurses on the new response.  The model is
abstracted as `oracle : Nat → Response` giving the response of the k-th
follow-up call. -/

/-- A capability result, `{is_direct: bool, value}` shaped. -/
structure FuncResult where
  direct : Bool
  content : String
deriving DecidableEq, Repr

/-- Modelled from the spec: `utils.is_direct_result` is imported by the
helper but absent from the repository snapshot; per the spec a result can be
"marked **direct** (meaning the capability has already produced the final
user-visible output)". -/
def is_direct_result (fr : FuncResult) : Bool := fr.direct

inductive ContentItem where
  | text (s : String)
  | tool_use (tname : String) (input : String)
  | otherItem
deriving DecidableEq, Repr

structure Response where
  content : List ContentItem
deriving DecidableEq, Repr

/-- What a dispatch run hands back to `get_chat_response`: either the last
model response, or a direct capability result returned verbatim. -/
inductive Outcome where
  | model (r : Response)
  | direct (fr : FuncResult)
deriving DecidableEq, Repr

structure DispatchResult where
  outcome : Outcome
  plugins_used : List String
  history : List Msg
  model_calls : Nat
deriving DecidableEq, Repr

/-- The fixed marker recorded in the history when a direct result was sent:
`json.dumps(\x7b'result': 'Done, the content has been sent to the user.'\x7d)`. -/
def done_content : String :=
  "\x7b\"result\": \"Done, the content has been sent to the user.\"\x7d"

/-- The body of `__handle_function_call`: iterate over the content items of
`response`; on a `tool_use` item call the capability, record it in
`plugins_used`, short-circuit on a direct result, otherwise append the
function message and — if `times < functions_max_consecutive_calls` — call
the model again (`oracle model_calls`) and recurse on the fresh response. -/
def handle_items (cfg : Config) (call_fn : String → String → FuncResult)
    (oracle : Nat → Response) (times : Nat) (items : List ContentItem)
    (response : Response) (plugins_used : List String) (hist : List Msg)
    (model_calls : Nat) : DispatchResult :=
  match items with
  | [] => ⟨Outcome.model response, plugins_used, hist, model_calls⟩
  | ContentItem.text _ :: rest =>
    handle_items cfg call_fn oracle times rest response plugins_used hist model_calls
  | ContentItem.otherItem :: rest =>
    handle_items cfg call_fn oracle times rest response plugins_used hist model_calls
  | ContentItem.tool_use tname input :: rest =>
    let fr := call_fn tname input
    let used' := if tname ∈ plugins_used then plugins_used else plugins_used ++ [tname]
    if is_direct_result fr then
      ⟨Outcome.direct fr, used', hist ++ [functionMsg tname done_content], model_calls⟩
    else
      let hist' := hist ++ [functionMsg tname fr.content]
      if h : times < cfg.functions_max_consecutive_calls then
        let r' := oracle model_calls
        handle_items cfg call_fn oracle (times + 1) r'.content r' used' hist' (model_calls + 1)
      else
        handle_items cfg call_fn oracle times rest response used' hist' model_calls
termination_by (cfg.functions_max_consecutive_calls - times, items.length)
decreasing_by
  · apply Prod.Lex.right
    simp only [List.length_cons]
    omega
  · apply Prod.Lex.right
    simp only [List.length_cons]
    omega
  · apply Prod.Lex.left
    omega
  · apply Prod.Lex.right
    simp only [List.length_cons]
    omega

/-- `__handle_function_call(chat_id, response, times, plugins_used)`:
an empty content list returns the response unchanged. -/
def handle_function_call (cfg : Config) (call_fn : String → String → FuncResult)
    (oracle : Nat → Response) (response : Response) (times : Nat)
    (plugins_used : List String) (hist : List Msg) (model_calls : Nat) : DispatchResult :=
  handle_items cfg call_fn oracle times response.content response plugins_used hist model_calls

/-- First text of a response (`response.content[0].text` in
`get_chat_response`; only reached for non-direct outcomes). -/
def first_text (r : Response) : String :=
  match r.content with
  | ContentItem.text s :: _ => s
  | _ => ""

/-- The tail of `get_chat_response`: a direct result is returned verbatim
(`return response, '0'`) and nothing is appended; otherwise the model answer
is appended as an assistant message. -/
def finalize_answer (hist : List Msg) (o : Outcome) : List Msg :=
  match o with
  | Outcome.direct _ => hist
  | Outcome.model r => hist ++ [assistantMsg (first_text r)]

/-! ## The plugin call (spec-modelled) -/

/-- A registered capability handler either returns a result or fails with a
`CapabilityFailure` message. -/
inductive HandlerOutcome where
  | ok (r : FuncResult)
  | failure (msg : String)

/-- The error-shaped tool-result payload. -/
def error_payload (msg : String) : String :=
  "\x7b\"error\": \"" ++ msg ++ "\"\x7d"

/-- Modelled from the spec: `PluginManager.call_function` of the old plugin
manager interface is invoked by `__handle_function_call` but absent from the
repository snapshot (the checked-in `plugin_manager.py` only has
`execute_plugin_action`).  Per §4.2/§7 of the spec an unknown capability or a
`CapabilityFailure` "is converted to a `tool-result` error payload so the
model can attempt recovery" — so the call never raises into the loop. -/
def call_function (registry : List (String × (String → HandlerOutcome)))
    (fname input : String) : FuncResult :=
  match registry.lookup fname with
  | none => ⟨false, error_payload ("No function named " ++ fname)⟩
  | some handler =>
    match handler input with
    | HandlerOutcome.ok r => r
    | HandlerOutcome.failure m => ⟨false, error_payload m⟩

/-! ## The tenacity-decorated executor (`__common_get_chat_response`)

`@retry(reraise=True, retry=retry_if_exception_type(RateLimitError),
wait=wait_fixed(20), stop=stop_after_attempt(3))`: each attempt runs the
function body; a `RateLimitError` is re-raised unchanged by the body's
`except` clause and retried by tenacity (up to 3 attempts, then the original
error is re-raised); `BadRequestError` and any other exception are wrapped
into a generic `Exception` by the body, which tenacity does not retry. -/

inductive ProviderError where
  | rate_limit (msg : String)
  | bad_request (msg : String)
  | generic (msg : String)
deriving DecidableEq, Repr

def ProviderError.is_rate_limit : ProviderError → Bool
  | ProviderError.rate_limit _ => true
  | _ => false

/-- `wait_fixed(20)`: the delay before every retry is the same 20 seconds,
whatever the attempt number. -/
def wait_fixed_delay (_attempt : Nat) : Nat := 20

/-- The `try/except` tail of the function body: rate limits re-raised as-is,
`BadRequestError` and all other exceptions wrapped into a localized generic
`Exception`. -/
def attempt_once {α : Type} (invalid_text error_text : String)
    (result : Except ProviderError α) : Except ProviderError α :=
  match result with
  | Except.ok a => Except.ok a
  | Except.error (ProviderError.rate_limit m) => Except.error (ProviderError.rate_limit m)
  | Except.error (ProviderError.bad_request m) =>
    Except.error (ProviderError.generic (invalid_text ++ m))
  | Except.error (ProviderError.generic m) =>
    Except.error (ProviderError.generic (error_text ++ m))

/-- Tenacity's loop: run attempt number `attempt` (1-based); on a retryable
error with `attempt < stop_attempts`, wait `wait_fixed_delay attempt` and
retry; otherwise re-raise the error unchanged (`reraise=True`). -/
def tenacity_retry {α : Type} (stop_attempts : Nat)
    (run : Nat → Except ProviderError α) (attempt : Nat) : Except ProviderError α :=
  match run attempt with
  | Except.ok a => Except.ok a
  | Except.error e =>
    if e.is_rate_limit then
      if h : attempt < stop_attempts then
        tenacity_retry stop_attempts run (attempt + 1)
      else Except.error e
    else Except.error e
termination_by stop_attempts - attempt
decreasing_by omega

/-- The retry wrapper around `__common_get_chat_response`, with the provider
call of attempt `k` abstracted as `call k`. -/
def common_get_chat_response {α : Type} (invalid_text error_text : String)
    (call : Nat → Except ProviderError α) : Except ProviderError α :=
  tenacity_retry 3 (fun k => attempt_once invalid_text error_text (call k)) 1

/-! ## The newer executor (`AnthropicHelper.process_message`) -/

def MAX_RETRIES : Nat := 3

/-- `RETRY_DELAY = 1.0` seconds, in milliseconds. -/
def RETRY_DELAY_MS : Nat := 1000

/-- `RETRY_DELAY * (2 ** attempt)`: exponential, not fixed, backoff. -/
def process_retry_delay_ms (attempt : Nat) : Nat := RETRY_DELAY_MS * 2 ^ attempt

inductive HttpError where
  | timeout
  | http_status (code : Nat)
  | rate_limit (msg : String)
  | generic (msg : String)
deriving DecidableEq, Repr

def claude_timeout_text : String :=
  "Timeout durante la richiesta a Claude dopo diversi tentativi."

def claude_http_text : String :=
  "Errore HTTP durante la richiesta a Claude: status "

def claude_wrap_text : String :=
  "Errore durante la elaborazione della richiesta a Claude: "

/-- `process_message`'s `for attempt in range(MAX_RETRIES)` loop: retries
only `httpx.TimeoutException` and 5xx `httpx.HTTPStatusError` (with
exponential backoff), and wraps every surfaced failure — including provider
rate-limit errors, which escape to the outer `except Exception` on the first
occurrence — in a `ClaudeException` message, never re-raising the original. -/
def process_message_loop {α : Type} (call : Nat → Except HttpError α)
    (attempt : Nat) : Except String α :=
  if _h : attempt < MAX_RETRIES then
    match call attempt with
    | Except.ok a => Except.ok a
    | Except.error HttpError.timeout =>
      if attempt < MAX_RETRIES - 1 then process_message_loop call (attempt + 1)
      else Except.error claude_timeout_text
    | Except.error (HttpError.http_status code) =>
      if code ≥ 500 ∧ attempt < MAX_RETRIES - 1 then process_message_loop call (attempt + 1)
      else Except.error (claude_http_text ++ toString code)
    | Except.error (HttpError.rate_limit m) => Except.error (claude_wrap_text ++ m)
    | Except.error (HttpError.generic m) => Except.error (claude_wrap_text ++ m)
  else Except.error (claude_wrap_text ++ "nessun tentativo eseguito")
termination_by MAX_RETRIES - attempt
decreasing_by all_goals omega

/-! ## Plugin activation (`PluginManager.activate_plugin`) -/

structure Plugin where
  display_name : String
deriving DecidableEq, Repr

/-- A plugin class: constructing and initialising it with a config either
yields a plugin instance or fails (`initialize()` returned `False` or the
constructor raised). -/
def PluginClass : Type := List (String × String) → Option Plugin

structure PMState where
  plugins : List (String × Plugin)
  plugin_classes : List (String × PluginClass)

/-- `activate_plugin(plugin_name, config)`: an already-active name is a
no-op that reports success (`return True`); an unknown class reports
failure; otherwise the class is instantiated and, on successful
initialisation, registered. -/
def activate_plugin (st : PMState) (plugin_name : String)
    (config : List (String × String)) : Bool × PMState :=
  if (st.plugins.lookup plugin_name).isSome then
    (true, st)
  else
    match st.plugin_classes.lookup plugin_name with
    | none => (false, st)
    | some mk_plugin =>
      match mk_plugin config with
      | some plugin => (true, ⟨st.plugins ++ [(plugin_name, plugin)], st.plugin_classes⟩)
      | none => (false, st)

/-! ## Theorems -/

/-- C8: `__estimate_tokens` is monotone under appending a message (so the
usage estimate is non-decreasing between compactions), it equals the total
weighted character count integer-divided by 4, the character count is
additive in the appended message, and every image block contributes the
fixed 1000-character surcharge. -/
theorem estimate_tokens_monotone :
    (∀ (hist : List Msg) (m : Msg),
      estimate_tokens hist ≤ estimate_tokens (hist ++ [m])) ∧
    (∀ (hist : List Msg) (m : Msg),
      total_chars (hist ++ [m]) = total_chars hist + content_chars m.content) ∧
    (∀ hist : List Msg, estimate_tokens hist = total_chars hist / 4) ∧
    content_chars (MsgContent.blocks [Block.image]) = 1000 := by
  have hadd : ∀ (hist : List Msg) (m : Msg),
      total_chars (hist ++ [m]) = total_chars hist + content_chars m.content := by
    intro hist m
    simp [total_chars]
  refine ⟨?_, hadd, fun _ => rfl, rfl⟩
  intro hist m
  unfold estimate_tokens
  rw [hadd]
  exact Nat.div_le_div_right (Nat.le_add_right _ _)

/-- C10: `reset_chat_history` always leaves the vision flag `False`
(whatever seed content it is given, and regardless of any prior session
state, e.g. one where `interpret_image` had set the flag), so tool use is
governed solely by `enable_functions` and model support on the next turn. -/
theorem reset_clears_vision_flag (cfg : Config) (content c2 : MsgContent) (s : Session) :
    (reset_chat_history cfg content).vision = false ∧
    (interpret_image_mark s c2).vision = true ∧
    tools_enabled cfg (reset_chat_history cfg content)
      = (cfg.enable_functions && are_functions_available cfg.model) := by
  refine ⟨rfl, rfl, ?_⟩
  simp [tools_enabled, reset_chat_history]

/-- C9 counterexample: activating a plugin whose name is already bound does
NOT fail — `activate_plugin` returns `True` and leaves the registry
unchanged, so no `DuplicateCapability`-style error is raised. -/
theorem activate_existing_plugin_succeeds :
    activate_plugin ⟨[("duckduckgo_search", ⟨"DuckDuckGoSearch"⟩)], []⟩
        "duckduckgo_search" []
      = (true, ⟨[("duckduckgo_search", ⟨"DuckDuckGoSearch"⟩)], []⟩) := by
  rfl

/-- C9 amended: activating a name that is already bound is an idempotent
no-op reporting success — the existing binding is kept and never replaced,
and no error is produced. -/
theorem activate_plugin_idempotent (st : PMState) (plugin_name : String)
    (config : List (String × String)) (p : Plugin)
    (hbound : st.plugins.lookup plugin_name = some p) :
    activate_plugin st plugin_name config = (true, st) := by
  unfold activate_plugin
  rw [hbound]
  simp

/-- C9 amended, witness. -/
theorem activate_plugin_idempotent_witness :
    activate_plugin ⟨[("duckduckgo_search", ⟨"DuckDuckGoSearch"⟩)], []⟩
        "duckduckgo_search" [("max_results", "3")]
      = (true, ⟨[("duckduckgo_search", ⟨"DuckDuckGoSearch"⟩)], []⟩) :=
  activate_plugin_idempotent _ _ _ ⟨"DuckDuckGoSearch"⟩ rfl

/-- Auxiliary: python `lst[-n:]` of a non-empty list is non-empty. -/
theorem pyTakeLast_ne_nil (l : List Msg) (n : Nat) (h : l ≠ []) :
    pyTakeLast l n ≠ [] := by
  unfold pyTakeLast
  split
  · exact h
  · next hn =>
    have hl : 0 < l.length := List.length_pos.mpr h
    intro hcon
    have hlen := congrArg List.length hcon
    simp only [List.length_drop, List.length_nil] at hlen
    omega

/-- C4: if the session log already exceeds `max_history_size`, the next turn
compacts before the provider call, and on a successful summarisation the
resulting log is exactly `[seed, summary, current user turn]`. -/
theorem compaction_postcondition (cfg : Config)
    (summarise : List Msg → Except String String)
    (seed : MsgContent) (rest : List Msg) (query summary : String) (vision : Bool)
    (hseed : seed ≠ MsgContent.str "")
    (hlen : (systemMsg seed :: rest).length > cfg.max_history_size)
    (hsum : summarise (systemMsg seed :: rest) = Except.ok summary) :
    (prepare_history cfg summarise ⟨systemMsg seed :: rest, vision⟩ query).history
      = [systemMsg seed, assistantMsg summary, userMsg query] := by
  have hdrop : ((systemMsg seed :: rest) ++ [userMsg query]).dropLast
      = systemMsg seed :: rest := by
    rw [List.dropLast_concat]
  have hcond : estimate_tokens ((systemMsg seed :: rest) ++ [userMsg query]) > MAX_TOKENS_CAP
      ∨ ((systemMsg seed :: rest) ++ [userMsg query]).length > cfg.max_history_size := by
    right
    simp only [List.length_append, List.length_cons] at hlen ⊢
    omega
  simp only [prepare_history, hdrop, hsum, if_pos hcond]
  simp [reset_chat_history, hseed, systemMsg]

/-- C4, witness. -/
theorem compaction_postcondition_witness :
    (prepare_history ⟨"p", 2, 3, true, "claude-3-opus-20240229"⟩
        (fun _ => Except.ok "sum")
        ⟨systemMsg (MsgContent.str "p") :: [userMsg "a", assistantMsg "b"], false⟩
        "q").history
      = [systemMsg (MsgContent.str "p"), assistantMsg "sum", userMsg "q"] :=
  compaction_postcondition _ _ _ _ _ _ _ (by decide) (by decide) rfl

/-- C6: when the trigger condition holds but the summarisation call fails,
the log is truncated to the most recent `max_history_size` entries and the
turn continues normally — `prepare_history` returns the truncated session
instead of propagating the failure. -/
theorem summarisation_failure_truncates (cfg : Config)
    (summarise : List Msg → Except String String) (s : Session) (query e : String)
    (hexc : estimate_tokens (s.history ++ [userMsg query]) > MAX_TOKENS_CAP
      ∨ (s.history ++ [userMsg query]).length > cfg.max_history_size)
    (hfail : summarise ((s.history ++ [userMsg query]).dropLast) = Except.error e) :
    prepare_history cfg summarise s query
      = ⟨pyTakeLast (s.history ++ [userMsg query]) cfg.max_history_size, s.vision⟩ := by
  simp only [prepare_history, hfail, if_pos hexc]

/-- C6, witness. -/
theorem summarisation_failure_truncates_witness :
    prepare_history ⟨"p", 2, 3, true, "claude-3-opus-20240229"⟩
        (fun _ => Except.error "boom")
        ⟨[systemMsg (MsgContent.str "p"), userMsg "a", assistantMsg "b"], false⟩ "c"
      = ⟨pyTakeLast [systemMsg (MsgContent.str "p"), userMsg "a", assistantMsg "b",
          userMsg "c"] 2, false⟩ :=
  summarisation_failure_truncates _ _ _ _ _ (Or.inr (by decide)) rfl

/-- C7 counterexample: after the truncation fallback the first log entry can
be an ordinary assistant message — the system seed is evicted, contradicting
"the log always retains the system/assistant-persona seed message as its
first entry". -/
theorem truncation_fallback_drops_seed :
    ((prepare_history ⟨"seed prompt", 2, 3, true, "claude-3-opus-20240229"⟩
        (fun _ => Except.error "boom")
        ⟨[systemMsg (MsgContent.str "seed prompt"), userMsg "a", assistantMsg "b"], false⟩
        "c").history.head?.map Msg.role) = some "assistant" := by
  decide

/-- C7 amended: after initialization the log always has at least one entry;
`reset_chat_history` seeds it with a single system message, appending keeps
the head, and a turn with a successful summariser keeps the system seed as
the first entry — but the truncation fallback may evict the seed (see the
counterexample). -/
theorem session_log_invariants (cfg : Config) :
    (∀ content, (reset_chat_history cfg content).history.length = 1 ∧
      ((reset_chat_history cfg content).history.head?.map Msg.role) = some "system") ∧
    (∀ (hist : List Msg) (m : Msg), hist ≠ [] → (hist ++ [m]).head? = hist.head?) ∧
    (∀ (summarise : List Msg → Except String String) (s : Session) (query : String),
      (prepare_history cfg summarise s query).history ≠ []) ∧
    (∀ (summarise : List Msg → Except String String) (seed : MsgContent)
        (rest : List Msg) (query : String) (vision : Bool),
      (∀ l, ∃ t, summarise l = Except.ok t) → seed ≠ MsgContent.str "" →
      (prepare_history cfg summarise ⟨systemMsg seed :: rest, vision⟩ query).history.head?
        = some (systemMsg seed)) := by
  refine ⟨?_, ?_, ?_, ?_⟩
  · intro content
    constructor
    · simp [reset_chat_history]
    · simp [reset_chat_history, systemMsg]
  · intro hist m h
    cases hist with
    | nil => exact absurd rfl h
    | cons a l => simp
  · intro summarise s query
    simp only [prepare_history]
    split
    · split
      · simp [reset_chat_history]
      · exact pyTakeLast_ne_nil _ _ (by simp)
    · simp
  · intro summarise seed rest query vision hok hseed
    obtain ⟨t, ht⟩ := hok (((systemMsg seed :: rest) ++ [userMsg query]).dropLast)
    simp only [prepare_history]
    split
    · rw [ht]
      simp [reset_chat_history, hseed, systemMsg]
    · simp

/-- C7 amended, witness. -/
theorem session_log_invariants_witness :
    ([systemMsg (MsgContent.str "p"), userMsg "a"] ++ [assistantMsg "b"]).head?
        = [systemMsg (MsgContent.str "p"), userMsg "a"].head? ∧
    (prepare_history ⟨"p", 0, 3, true, "claude-3-opus-20240229"⟩
        (fun _ => Except.ok "sum")
        ⟨[systemMsg (MsgContent.str "p")], false⟩ "q").history.head?
      = some (systemMsg (MsgContent.str "p")) :=
  ⟨(session_log_invariants ⟨"p", 0, 3, true, "claude-3-opus-20240229"⟩).2.1 _ _ (by simp),
   (session_log_invariants ⟨"p", 0, 3, true, "claude-3-opus-20240229"⟩).2.2.2 _ _ _ _ _
     (fun _ => ⟨"sum", rfl⟩) (by decide)⟩

/-- Auxiliary bound for the dispatch loop, by induction on the remaining
depth budget and then on the content items: the loop makes at most
`functions_max_consecutive_calls - times` further model calls. -/
theorem handle_items_model_calls_le_aux (cfg : Config)
    (call_fn : String → String → FuncResult) (oracle : Nat → Response) :
    ∀ (k times : Nat), cfg.functions_max_consecutive_calls - times ≤ k →
    ∀ (items : List ContentItem) (response : Response) (used : List String)
      (hist : List Msg) (n : Nat),
    (handle_items cfg call_fn oracle times items response used hist n).model_calls
      ≤ n + (cfg.functions_max_consecutive_calls - times) := by
  intro k
  induction k with
  | zero =>
    intro times hk items
    induction items with
    | nil =>
      intro response used hist n
      simp [handle_items]
    | cons i rest ihr =>
      intro response used hist n
      cases i with
      | text s => simpa [handle_items] using ihr response used hist n
      | otherItem => simpa [handle_items] using ihr response used hist n
      | tool_use tname input =>
        by_cases hdir : (call_fn tname input).direct = true
        · simp [handle_items, is_direct_result, hdir]
        · have hlt : ¬ times < cfg.functions_max_consecutive_calls := by omega
          simp only [handle_items, is_direct_result, hdir, Bool.false_eq_true,
            if_false, hlt, dite_false]
          exact ihr response _ _ n
  | succ k ihk =>
    intro times hk items
    induction items with
    | nil =>
      intro response used hist n
      simp [handle_items]
    | cons i rest ihr =>
      intro response used hist n
      cases i with
      | text s => simpa [handle_items] using ihr response used hist n
      | otherItem => simpa [handle_items] using ihr response used hist n
      | tool_use tname input =>
        by_cases hdir : (call_fn tname input).direct = true
        · simp [handle_items, is_direct_result, hdir]
        · by_cases hlt : times < cfg.functions_max_consecutive_calls
          · simp only [handle_items, is_direct_result, hdir, Bool.false_eq_true,
              if_false, hlt, dite_true]
            have hstep := ihk (times + 1) (by omega) (oracle n).content (oracle n)
              (if tname ∈ used then used else used ++ [tname])
              (hist ++ [functionMsg tname (call_fn tname input).content]) (n + 1)
            refine le_trans hstep ?_
            omega
          · simp only [handle_items, is_direct_result, hdir, Bool.false_eq_true,
              if_false, hlt, dite_false]
            exact ihr response _ _ n

/-- The dispatch loop makes at most `functions_max_consecutive_calls - times`
further model calls. -/
theorem handle_items_model_calls_le (cfg : Config)
    (call_fn : String → String → FuncResult) (oracle : Nat → Response)
    (times : Nat) (items : List ContentItem) (response : Response)
    (used : List String) (hist : List Msg) (n : Nat) :
    (handle_items cfg call_fn oracle times items response used hist n).model_calls
      ≤ n + (cfg.functions_max_consecutive_calls - times) :=
  handle_items_model_calls_le_aux cfg call_fn oracle
    (cfg.functions_max_consecutive_calls - times) times le_rfl items response used hist n

/-- Once the depth counter has reached the configured maximum, the loop makes
no further model call and hands the current response back unchanged (tools
whose results are not direct are still executed and logged). -/
theorem handle_items_at_cap (cfg : Config)
    (call_fn : String → String → FuncResult) (oracle : Nat → Response)
    (hnd : ∀ tname input, (call_fn tname input).direct = false) :
    ∀ (items : List ContentItem) (times : Nat),
      cfg.functions_max_consecutive_calls ≤ times →
    ∀ (response : Response) (used : List String) (hist : List Msg) (n : Nat),
    (handle_items cfg call_fn oracle times items response used hist n).outcome
        = Outcome.model response ∧
    (handle_items cfg call_fn oracle times items response used hist n).model_calls = n := by
  intro items
  induction items with
  | nil =>
    intro times hcap response used hist n
    simp [handle_items]
  | cons i rest ihr =>
    intro times hcap response used hist n
    cases i with
    | text s => simpa [handle_items] using ihr times hcap response used hist n
    | otherItem => simpa [handle_items] using ihr times hcap response used hist n
    | tool_use tname input =>
      have hdir := hnd tname input
      have hlt : ¬ times < cfg.functions_max_consecutive_calls := by omega
      simp only [handle_items, is_direct_result, hdir, Bool.false_eq_true,
        if_false, hlt, dite_false]
      exact ihr times hcap response _ _ n

/-- C1: starting a dispatch run at depth 0, the number of feedback model
calls never exceeds `functions_max_consecutive_calls` (so a turn makes at
most `max_depth + 1` model calls, counting the initial one), and once the
depth counter has reached the maximum the last model response is returned
as-is even if it still requests a tool. -/
theorem tool_dispatch_depth_bounded (cfg : Config)
    (call_fn : String → String → FuncResult) (oracle : Nat → Response)
    (response : Response) (used : List String) (hist : List Msg) :
    (handle_function_call cfg call_fn oracle response 0 used hist 0).model_calls
        ≤ cfg.functions_max_consecutive_calls ∧
    (∀ (r2 : Response) (u2 : List String) (h2 : List Msg) (n2 : Nat),
      (∀ tname input, (call_fn tname input).direct = false) →
      (handle_function_call cfg call_fn oracle r2
          cfg.functions_max_consecutive_calls u2 h2 n2).outcome = Outcome.model r2) := by
  constructor
  · have hb := handle_items_model_calls_le cfg call_fn oracle 0 response.content
      response used hist 0
    simpa [handle_function_call] using hb
  · intro r2 u2 h2 n2 hnd
    exact (handle_items_at_cap cfg call_fn oracle hnd r2.content
      cfg.functions_max_consecutive_calls le_rfl r2 u2 h2 n2).1

/-- C1, witness. -/
theorem tool_dispatch_depth_bounded_witness :
    (handle_function_call ⟨"p", 15, 3, true, "claude-3-opus-20240229"⟩
        (fun _ _ => ⟨false, "result"⟩)
        (fun _ => ⟨[ContentItem.tool_use "search" "pasta"]⟩)
        ⟨[ContentItem.tool_use "search" "pasta"]⟩ 0 [] [] 0).model_calls ≤ 3 ∧
    (handle_function_call ⟨"p", 15, 3, true, "claude-3-opus-20240229"⟩
        (fun _ _ => ⟨false, "result"⟩)
        (fun _ => ⟨[ContentItem.tool_use "search" "pasta"]⟩)
        ⟨[ContentItem.tool_use "search" "pasta"]⟩ 3 [] [] 7).outcome
      = Outcome.model ⟨[ContentItem.tool_use "search" "pasta"]⟩ := by
  have h := tool_dispatch_depth_bounded ⟨"p", 15, 3, true, "claude-3-opus-20240229"⟩
    (fun _ _ => ⟨false, "result"⟩)
    (fun _ => ⟨[ContentItem.tool_use "search" "pasta"]⟩)
    ⟨[ContentItem.tool_use "search" "pasta"]⟩ [] []
  exact ⟨h.1, h.2 _ [] [] 7 (fun _ _ => rfl)⟩

def is_tool_use : ContentItem → Bool
  | ContentItem.tool_use _ _ => true
  | _ => false

/-- C3: when the first `tool_use` item of a response yields a direct result,
the dispatch loop stops at once and returns that result verbatim: no
further model call is made (`model_calls` stays at `n`), only the fixed
"Done" function marker is logged, and `finalize_answer` appends no ordinary
assistant answer for a direct outcome. -/
theorem direct_result_short_circuits (cfg : Config)
    (call_fn : String → String → FuncResult) (oracle : Nat → Response)
    (pre rest : List ContentItem) (tname input : String)
    (response : Response) (times : Nat) (used : List String) (hist : List Msg) (n : Nat)
    (hresp : response.content = pre ++ ContentItem.tool_use tname input :: rest)
    (hpre : ∀ i ∈ pre, is_tool_use i = false)
    (hdir : (call_fn tname input).direct = true) :
    handle_function_call cfg call_fn oracle response times used hist n
      = ⟨Outcome.direct (call_fn tname input),
         (if tname ∈ used then used else used ++ [tname]),
         hist ++ [functionMsg tname done_content], n⟩ ∧
    (∀ h0 : List Msg, finalize_answer h0 (Outcome.direct (call_fn tname input)) = h0) := by
  constructor
  · unfold handle_function_call
    rw [hresp]
    clear hresp
    revert hpre
    induction pre with
    | nil =>
      intro _
      simp [handle_items, is_direct_result, hdir]
    | cons i pre ihp =>
      intro hpre
      have hi := hpre i (by simp)
      have hpre2 : ∀ j ∈ pre, is_tool_use j = false := fun j hj => hpre j (by simp [hj])
      cases i with
      | text s => simpa [handle_items] using ihp hpre2
      | otherItem => simpa [handle_items] using ihp hpre2
      | tool_use a b => simp [is_tool_use] at hi
  · intro h0
    rfl

/-- C3, witness. -/
theorem direct_result_short_circuits_witness :
    handle_function_call ⟨"p", 15, 3, true, "claude-3-opus-20240229"⟩
        (fun _ _ => ⟨true, "sent"⟩) (fun _ => ⟨[]⟩)
        ⟨[ContentItem.text "x", ContentItem.tool_use "send_doc" "d"]⟩ 0 [] [] 0
      = ⟨Outcome.direct ⟨true, "sent"⟩, ["send_doc"],
         [functionMsg "send_doc" done_content], 0⟩ ∧
    finalize_answer [] (Outcome.direct ⟨true, "sent"⟩) = [] := by
  have h := direct_result_short_circuits ⟨"p", 15, 3, true, "claude-3-opus-20240229"⟩
    (fun _ _ => ⟨true, "sent"⟩) (fun _ => ⟨[]⟩)
    [ContentItem.text "x"] [] "send_doc" "d"
    ⟨[ContentItem.text "x", ContentItem.tool_use "send_doc" "d"]⟩ 0 [] [] 0
    rfl (by decide) rfl
  exact ⟨by simpa using h.1, h.2 []⟩

/-- C5: a capability failure below the maximum depth is converted into an
error-shaped `tool-result` message appended to the log, and the loop
continues with the next model call instead of aborting the turn. -/
theorem capability_failure_appends_and_continues (cfg : Config)
    (registry : List (String × (String → HandlerOutcome))) (oracle : Nat → Response)
    (handler : String → HandlerOutcome) (tname input emsg : String)
    (rest : List ContentItem) (response : Response) (used : List String)
    (hist : List Msg) (times n : Nat)
    (hreg : registry.lookup tname = some handler)
    (hfail : handler input = HandlerOutcome.failure emsg)
    (hdepth : times < cfg.functions_max_consecutive_calls) :
    handle_items cfg (call_function registry) oracle times
        (ContentItem.tool_use tname input :: rest) response used hist n
      = handle_items cfg (call_function registry) oracle (times + 1)
          (oracle n).content (oracle n)
          (if tname ∈ used then used else used ++ [tname])
          (hist ++ [functionMsg tname (error_payload emsg)]) (n + 1) := by
  have hfr : call_function registry tname input = ⟨false, error_payload emsg⟩ := by
    simp [call_function, hreg, hfail]
  simp only [handle_items, hfr, is_direct_result, Bool.false_eq_true, if_false,
    hdepth, dite_true]

/-- C5, witness (the spec's Scenario C: `CapabilityFailure("timeout")` at
depth 1 of a max depth of 3). -/
theorem capability_failure_appends_and_continues_witness :
    handle_items ⟨"p", 15, 3, true, "claude-3-opus-20240229"⟩
        (call_function [("search", fun _ => HandlerOutcome.failure "timeout")])
        (fun _ => ⟨[ContentItem.text "recovered"]⟩) 1
        [ContentItem.tool_use "search" "pasta"]
        ⟨[ContentItem.tool_use "search" "pasta"]⟩ [] [] 0
      = handle_items ⟨"p", 15, 3, true, "claude-3-opus-20240229"⟩
          (call_function [("search", fun _ => HandlerOutcome.failure "timeout")])
          (fun _ => ⟨[ContentItem.text "recovered"]⟩) 2
          [ContentItem.text "recovered"] ⟨[ContentItem.text "recovered"]⟩
          ["search"] [functionMsg "search" (error_payload "timeout")] 1 := by
  have h := capability_failure_appends_and_continues
    ⟨"p", 15, 3, true, "claude-3-opus-20240229"⟩
    [("search", fun _ => HandlerOutcome.failure "timeout")]
    (fun _ => ⟨[ContentItem.text "recovered"]⟩)
    (fun _ => HandlerOutcome.failure "timeout") "search" "pasta" "timeout"
    [] ⟨[ContentItem.tool_use "search" "pasta"]⟩ [] [] 1 0
    rfl rfl (by decide)
  simpa using h

/-- C2 counterexample: in the newer executor (`AnthropicHelper.process_message`)
a provider rate-limit error on the first attempt is neither retried nor
re-raised verbatim — it surfaces wrapped in a `ClaudeException` message even
though the call would have succeeded on the third attempt — and the retry
delay is exponential, not fixed. -/
theorem process_message_rate_limit_not_retried :
    process_message_loop
        (fun k => if k < 2 then Except.error (HttpError.rate_limit "rate limited")
                  else Except.ok 42) 0
      = Except.error (claude_wrap_text ++ "rate limited") ∧
    Except.error (claude_wrap_text ++ "rate limited") ≠ (Except.ok 42 : Except String Nat) ∧
    process_retry_delay_ms 0 ≠ process_retry_delay_ms 1 := by
  refine ⟨?_, by simp, by decide⟩
  simp [process_message_loop, MAX_RETRIES]

/-- C2 amended: for the tenacity-decorated executor
(`__common_get_chat_response`), a rate-limit error on the first two attempts
followed by a success returns the success; the delay is fixed; and if every
attempt raises the rate-limit error, the original error is re-raised
verbatim after the 3rd attempt. -/
theorem tenacity_retry_policy {α : Type} (invalid_text error_text : String)
    (call : Nat → Except ProviderError α) (r : α) (m1 m2 : String)
    (h1 : call 1 = Except.error (ProviderError.rate_limit m1))
    (h2 : call 2 = Except.error (ProviderError.rate_limit m2))
    (h3 : call 3 = Except.ok r) :
    common_get_chat_response invalid_text error_text call = Except.ok r ∧
    (∀ (g : Nat → Except ProviderError α) (m : String),
      (∀ k, g k = Except.error (ProviderError.rate_limit m)) →
      common_get_chat_response invalid_text error_text g
        = Except.error (ProviderError.rate_limit m)) ∧
    (∀ i j, wait_fixed_delay i = wait_fixed_delay j) := by
  have hb1 : attempt_once invalid_text error_text (call 1)
      = Except.error (ProviderError.rate_limit m1) := by rw [h1]; rfl
  have hb2 : attempt_once invalid_text error_text (call 2)
      = Except.error (ProviderError.rate_limit m2) := by rw [h2]; rfl
  have hb3 : attempt_once invalid_text error_text (call 3) = Except.ok r := by
    rw [h3]; rfl
  refine ⟨?_, ?_, fun i j => rfl⟩
  · simp only [common_get_chat_response]
    simp [tenacity_retry, hb1, hb2, hb3, ProviderError.is_rate_limit]
  · intro g m hg
    have hbg : ∀ k, attempt_once invalid_text error_text (g k)
        = Except.error (ProviderError.rate_limit m) := by
      intro k
      rw [hg k]
      rfl
    simp only [common_get_chat_response]
    simp [tenacity_retry, hbg, ProviderError.is_rate_limit]

/-- C2 amended, witness. -/
theorem tenacity_retry_policy_witness :
    common_get_chat_response "invalid: " "error: "
        (fun k => if k < 3 then Except.error (ProviderError.rate_limit "busy")
                  else Except.ok 7)
      = Except.ok 7 ∧
    common_get_chat_response "invalid: " "error: "
        (fun _ => (Except.error (ProviderError.rate_limit "busy") : Except ProviderError Nat))
      = Except.error (ProviderError.rate_limit "busy") := by
  have h := tenacity_retry_policy "invalid: " "error: "
    (fun k => if k < 3 then Except.error (ProviderError.rate_limit "busy")
              else Except.ok 7)
    7 "busy" "busy" rfl rfl rfl
  exact ⟨h.1, h.2.1 _ "busy" (fun _ => rfl)⟩

end ClaudeBot
